import Mathlib

/-!
Verification of the wa-group-summary-bot backend: a shallow embedding of
the topic-ingestion pipeline (`src/api/load_custom_topics_api.py`), the
group administration endpoints (`src/api/setup_api.py`), and the SHA-256
identifier derivation they rely on, together with theorems settling the
specification's claims about them.

Conventions of the embedding:
* Python strings are Lean `String`s; `str.encode()` (UTF-8) is modelled by
  an explicit UTF-8 byte encoder over the string's characters.
* `hashlib.sha256(...).hexdigest()` is modelled by a full executable
  SHA-256 over byte lists (machine words are `Nat` reduced mod 2^32).
* The database session is modelled by explicit state passing: the set of
  `Group` rows and the set of `KBTopic` rows are lists threaded through
  each handler; a commit is the point where the new list replaces the old.
* `await`ed fallible calls (the Bedrock embedding client, SQLAlchemy's
  `scalar_one_or_none`) are modelled with `Except`.
* `datetime.now()` is modelled by a timestamp parameter passed to the
  handler: the handler is a function of the moment it runs; its string
  form (as interpolated into the id f-string) is what the model carries.
-/

namespace WaBot

/-! ## SHA-256 (model of Python's `hashlib.sha256(...).hexdigest()`) -/

/-- Truncation to a 32-bit machine word. -/
def w32 (n : Nat) : Nat := n % 4294967296

/-- 32-bit right rotation. -/
def rotr (n x : Nat) : Nat :=
  w32 ((x >>> n) ||| (x <<< (32 - n)))

/-- SHA-256 small sigma 0. -/
def ssig0 (x : Nat) : Nat := (rotr 7 x) ^^^ (rotr 18 x) ^^^ (x >>> 3)

/-- SHA-256 small sigma 1. -/
def ssig1 (x : Nat) : Nat := (rotr 17 x) ^^^ (rotr 19 x) ^^^ (x >>> 10)

/-- SHA-256 big sigma 0. -/
def bsig0 (x : Nat) : Nat := (rotr 2 x) ^^^ (rotr 13 x) ^^^ (rotr 22 x)

/-- SHA-256 big sigma 1. -/
def bsig1 (x : Nat) : Nat := (rotr 6 x) ^^^ (rotr 11 x) ^^^ (rotr 25 x)

/-- SHA-256 choice function. -/
def chf (x y z : Nat) : Nat := (x &&& y) ^^^ ((w32 (2^32 - 1 - x)) &&& z)

/-- SHA-256 majority function. -/
def maj (x y z : Nat) : Nat := (x &&& y) ^^^ (x &&& z) ^^^ (y &&& z)

/-- Largest `x` with `cost x ≤ n`, by 128 bisection steps (enough for
every argument used here, which is below `2 ^ 128`). -/
def bisectRoot (cost : Nat → Nat) (n : Nat) : Nat :=
  ((List.range 128).foldl
    (fun lh _ =>
      let mid := (lh.1 + lh.2 + 1) / 2
      if cost mid ≤ n then (mid, lh.2) else (lh.1, mid - 1))
    ((0 : Nat), n)).1

/-- Primality by trial division; used only to build the SHA-256 constant
tables from their published definition. -/
def isPrimeNat (n : Nat) : Bool :=
  decide (2 ≤ n) && (List.range n).all fun d => decide (d < 2) || n % d != 0

/-- The first 64 primes (2 .. 311). -/
def shaPrimes : List Nat := ((List.range 312).filter isPrimeNat).take 64

/-- The first 32 bits of the fractional part of the square root of `p`. -/
def fracSqrtWord (p : Nat) : Nat :=
  bisectRoot (fun x => x * x) (p <<< 64) % 4294967296

/-- The first 32 bits of the fractional part of the cube root of `p`. -/
def fracCbrtWord (p : Nat) : Nat :=
  bisectRoot (fun x => x * x * x) (p <<< 96) % 4294967296

/-- The 64 SHA-256 round constants: the first 32 fractional bits of the
cube roots of the first 64 primes, per the FIPS 180-4 definition. -/
def shaK : List Nat := shaPrimes.map fracCbrtWord

/-- The SHA-256 hash state: eight 32-bit words. -/
structure Hash8 where
  a : Nat
  b : Nat
  c : Nat
  d : Nat
  e : Nat
  f : Nat
  g : Nat
  h : Nat
deriving Repr, DecidableEq

/-- The SHA-256 initial hash value: the first 32 fractional bits of the
square roots of the first 8 primes, per the FIPS 180-4 definition. -/
def shaH0 : Hash8 :=
  ⟨fracSqrtWord 2, fracSqrtWord 3, fracSqrtWord 5, fracSqrtWord 7,
   fracSqrtWord 11, fracSqrtWord 13, fracSqrtWord 17, fracSqrtWord 19⟩

/-- Extend a 16-word message block to the 64-word message schedule. -/
def msgSchedule (block : List Nat) : List Nat :=
  (List.range 48).foldl
    (fun ws _ =>
      ws ++ [w32 (ssig1 (ws.getD (ws.length - 2) 0) + ws.getD (ws.length - 7) 0 +
                  ssig0 (ws.getD (ws.length - 15) 0) + ws.getD (ws.length - 16) 0)])
    block

/-- One SHA-256 round. -/
def shaRound (st : Hash8) (kw : Nat × Nat) : Hash8 :=
  let t1 := w32 (st.h + bsig1 st.e + chf st.e st.f st.g + kw.1 + kw.2)
  let t2 := w32 (bsig0 st.a + maj st.a st.b st.c)
  ⟨w32 (t1 + t2), st.a, st.b, st.c, w32 (st.d + t1), st.e, st.f, st.g⟩

/-- Compress one 16-word block into the running hash state. -/
def shaCompress (st : Hash8) (block : List Nat) : Hash8 :=
  let ws := msgSchedule block
  let r := (shaK.zip ws).foldl shaRound st
  ⟨w32 (st.a + r.a), w32 (st.b + r.b), w32 (st.c + r.c), w32 (st.d + r.d),
   w32 (st.e + r.e), w32 (st.f + r.f), w32 (st.g + r.g), w32 (st.h + r.h)⟩

/-- SHA-256 padding: append 0x80, zero bytes, and the 64-bit big-endian
bit length, reaching a multiple of 64 bytes. -/
def shaPad (msg : List Nat) : List Nat :=
  let len := msg.length
  let zeros := (64 - ((len + 9) % 64)) % 64
  let bitLen := 8 * len
  msg ++ [0x80] ++ List.replicate zeros 0 ++
    [(bitLen >>> 56) % 256, (bitLen >>> 48) % 256, (bitLen >>> 40) % 256, (bitLen >>> 32) % 256,
     (bitLen >>> 24) % 256, (bitLen >>> 16) % 256, (bitLen >>> 8) % 256, bitLen % 256]

/-- Split the padded byte list into 16-word big-endian blocks. -/
def shaBlocks (padded : List Nat) : List (List Nat) :=
  (List.range (padded.length / 64)).map fun i =>
    (List.range 16).map fun j =>
      (padded.getD (64 * i + 4 * j) 0) <<< 24 |||
      (padded.getD (64 * i + 4 * j + 1) 0) <<< 16 |||
      (padded.getD (64 * i + 4 * j + 2) 0) <<< 8 |||
      (padded.getD (64 * i + 4 * j + 3) 0)

/-- SHA-256 digest of a byte list, as eight 32-bit words. -/
def sha256Words (msg : List Nat) : Hash8 :=
  ((shaBlocks (shaPad msg)).foldl shaCompress shaH0)

/-- The sixteen lowercase hexadecimal digits. -/
def hexDigits : List Char := "0123456789abcdef".data

/-- Lowercase hex digit of `n % 16`. -/
def hexDigit (n : Nat) : Char := hexDigits.getD (n % 16) '0'

/-- Eight-character lowercase hex rendering of a 32-bit word. -/
def hexWord (n : Nat) : List Char :=
  [hexDigit (n >>> 28), hexDigit (n >>> 24), hexDigit (n >>> 20), hexDigit (n >>> 16),
   hexDigit (n >>> 12), hexDigit (n >>> 8), hexDigit (n >>> 4), hexDigit n]

/-- Hex digest string of a hash state: model of `.hexdigest()`. -/
def hexDigest (st : Hash8) : String :=
  String.mk (hexWord st.a ++ hexWord st.b ++ hexWord st.c ++ hexWord st.d ++
             hexWord st.e ++ hexWord st.f ++ hexWord st.g ++ hexWord st.h)

/-- UTF-8 encoding of a Unicode code point (model of Python `str.encode()`
applied character-wise). -/
def utf8Bytes (c : Nat) : List Nat :=
  if c < 0x80 then [c]
  else if c < 0x800 then [0xC0 ||| (c >>> 6), 0x80 ||| (c &&& 0x3F)]
  else if c < 0x10000 then
    [0xE0 ||| (c >>> 12), 0x80 ||| ((c >>> 6) &&& 0x3F), 0x80 ||| (c &&& 0x3F)]
  else
    [0xF0 ||| (c >>> 18), 0x80 ||| ((c >>> 12) &&& 0x3F),
     0x80 ||| ((c >>> 6) &&& 0x3F), 0x80 ||| (c &&& 0x3F)]

/-- UTF-8 bytes of a string: model of Python `str.encode()`. -/
def strBytes (s : String) : List Nat :=
  s.data.flatMap fun c => utf8Bytes c.toNat

/-- Model of `hashlib.sha256(s.encode()).hexdigest()`. -/
def sha256Hex (s : String) : String :=
  hexDigest (sha256Words (strBytes s))

/-! ## Data model (`models.Group`, `models.KBTopicCreate` / `KBTopic`) -/

/-- A chat group row (`models/group.py`): external JID, display name, and
the managed flag. -/
structure Group where
  group_jid : String
  group_name : String
  managed : Bool
deriving Repr, DecidableEq

/-- A topic submission (`CustomTopic` request model in
`src/api/load_custom_topics_api.py`). -/
structure CustomTopic where
  subject : String
  summary : String
deriving Repr, DecidableEq

/-- Embedding vectors are opaque to the pipeline: it never inspects their
contents, only moves them around, so the model represents them abstractly
as integer lists. -/
abbrev Embedding := List Int

/-- Timestamps appear in the pipeline only through their string rendering
(the f-string building the id) and as an opaque stored value, so the model
carries the string form. -/
abbrev Timestamp := String

/-- A persisted knowledge-base topic row (`models/knowledge_base_topic.py`),
with the fields the ingestion handler populates. -/
structure KBTopic where
  id : String
  embedding : Embedding
  group_jid : String
  start_time : Timestamp
  speakers : String
  summary : String
  subject : String
deriving Repr, DecidableEq

/-! ## Identifier derivation (lines 59-63 of `load_custom_topics_api.py`) -/

/-- The string interpolated by
`f"{group.group_jid}_{start_time}_{topic.subject}"`: the exact text fed to
the hash. -/
def idPreimage (group_jid : String) (ts : Timestamp) (subject : String) : String :=
  group_jid ++ "_" ++ ts ++ "_" ++ subject

/-- The record identifier:
`hashlib.sha256(f"{group_jid}_{start_time}_{subject}".encode()).hexdigest()`. -/
def derive_id (group_jid : String) (ts : Timestamp) (subject : String) : String :=
  sha256Hex (idPreimage group_jid ts subject)

/-! ## Storage (`models/upsert.py` is not in the sources) -/

/-- Insert-or-overwrite one row keyed by `id`. -/
def upsertOne (storage : List KBTopic) (r : KBTopic) : List KBTopic :=
  if storage.any (fun x => x.id == r.id) then
    storage.map fun x => if x.id == r.id then r else x
  else
    storage ++ [r]

/-- Modelled from the spec: `bulk_upsert` (`models/upsert.py`, whose source
is not included) — "Upsert: insert-or-overwrite-on-conflict persistence
operation keyed by identifier", applied to each record in order. -/
def bulk_upsert (storage : List KBTopic) (records : List KBTopic) : List KBTopic :=
  records.foldl upsertOne storage

/-! ## Topic ingestion (`load_custom_topics_api`, lines 26-92) -/

/-- The per-group record list built inside the fan-out loop (`doc_models`,
lines 57-72): one record per `zip(topics, topics_embeddings)` pair. -/
def docModels (topics : List CustomTopic) (embs : List Embedding)
    (start_time : Timestamp) (group : Group) : List KBTopic :=
  (topics.zip embs).map fun te =>
    { id := derive_id group.group_jid start_time te.1.subject
      embedding := te.2
      group_jid := group.group_jid
      start_time := start_time
      speakers := ""
      summary := te.1.summary
      subject := te.1.subject }

/-- All records produced by one run: the concatenation of the per-group
`doc_models` lists in loop order. -/
def producedRecords (topics : List CustomTopic) (embs : List Embedding)
    (start_time : Timestamp) (group_list : List Group) : List KBTopic :=
  group_list.flatMap (docModels topics embs start_time)

/-- The JSON object returned by the handler: `status` and `message` are
always present; the three count fields are present only in the success
dictionary (lines 82-88), absent from the early no-managed-groups return
(lines 42-46). -/
structure LoadSummary where
  status : String
  message : String
  topics_count : Option Nat
  groups_count : Option Nat
  total_records : Option Nat
deriving Repr, DecidableEq

/-- Outcome of one call to the handler: the HTTP-level result (`Except.error`
models the re-raised exception of lines 90-92), the committed storage after
the call, and how many times the embedding provider was invoked. -/
structure LoadOutcome where
  response : Except String LoadSummary
  storage : List KBTopic
  embedCalls : Nat
deriving Repr

/-- The loop body of lines 56-76: upsert this group's `doc_models` into the
session and add their count to `total_loaded`. -/
def loadStep (topics : List CustomTopic) (embs : List Embedding)
    (start_time : Timestamp) (acc : List KBTopic × Nat) (group : Group) :
    List KBTopic × Nat :=
  let doc_models := docModels topics embs start_time group
  (bulk_upsert acc.1 doc_models, acc.2 + doc_models.length)

/-- Shallow embedding of `load_custom_topics_api` (lines 26-92).
`registry` is the `Group` table, `storage` the committed `KBTopic` table,
`embedder` the Bedrock client (`bedrock_embed_text`), and `now` the value
`datetime.now()` produces at line 53. -/
def load_custom_topics_api (topics : List CustomTopic)
    (embedder : List String → Except String (List Embedding))
    (registry : List Group) (now : Timestamp) (storage : List KBTopic) :
    LoadOutcome :=
  let group_list := registry.filter fun g => g.managed
  if group_list.isEmpty then
    { response := .ok
        { status := "error", message := "No managed groups found"
          topics_count := none, groups_count := none, total_records := none }
      storage := storage
      embedCalls := 0 }
  else
    let documents := topics.map fun t => "# " ++ t.subject ++ "\n" ++ t.summary
    match embedder documents with
    | .error e => { response := .error e, storage := storage, embedCalls := 1 }
    | .ok topics_embeddings =>
      let start_time := now
      let res := group_list.foldl (loadStep topics topics_embeddings start_time) (storage, 0)
      { response := .ok
          { status := "success"
            message := "Loaded " ++ toString topics.length ++ " topics for " ++
                       toString group_list.length ++ " groups"
            topics_count := some topics.length
            groups_count := some group_list.length
            total_records := some res.2 }
        storage := res.1
        embedCalls := 1 }

/-! ## Group administration (`src/api/setup_api.py`) -/

/-- A row of the `select(Group).where(Group.group_jid == jid)` query. -/
def selectByJid (registry : List Group) (jid : String) : List Group :=
  registry.filter fun g => g.group_jid == jid

/-- SQLAlchemy's `scalar_one_or_none`: `none` for zero rows, the row for
exactly one, an exception (`MultipleResultsFound`) otherwise. -/
def scalarOneOrNone (rows : List Group) : Except String (Option Group) :=
  match rows with
  | [] => .ok none
  | [g] => .ok (some g)
  | _ => .error "MultipleResultsFound"

/-- Errors surfaced by the administration endpoints: the 404 of
`toggle_group` and the generic 500 of the broad `except` blocks. -/
inductive ApiError where
  | notFound
  | serverError (msg : String)
deriving Repr, DecidableEq

/-- The response body of `toggle_group` (lines 246-250): the group's JID,
name, and new managed state. -/
structure GroupResponse where
  group_jid : String
  group_name : String
  managed : Bool
deriving Repr, DecidableEq

/-- Shallow embedding of `toggle_group` (lines 224-256): look the group up
by JID, 404 when absent, otherwise flip its `managed` flag, commit, and
report the new state. The second component is the committed registry
(unchanged on every error path: the 404 is raised before any mutation and
the generic handler rolls back). -/
def toggle_group (group_jid : String) (registry : List Group) :
    Except ApiError GroupResponse × List Group :=
  match scalarOneOrNone (selectByJid registry group_jid) with
  | .error e => (.error (.serverError ("Failed to toggle group: " ++ e)), registry)
  | .ok none => (.error .notFound, registry)
  | .ok (some g) =>
    let newManaged := !g.managed
    let registry' := registry.map fun x =>
      if x.group_jid == group_jid then { x with managed := newManaged } else x
    (.ok { group_jid := g.group_jid, group_name := g.group_name, managed := newManaged },
     registry')

/-- One entry of the `POST /api/groups/update` request body. -/
structure GroupUpdate where
  group_jid : String
  managed : Bool
deriving Repr, DecidableEq

/-- The success response of `update_groups` (line 189):
`{"status": "success", "updated": len(updates)}`. -/
structure UpdateResponse where
  status : String
  updated : Nat
deriving Repr, DecidableEq

/-- The body of one iteration of the `update_groups` loop (lines 178-185):
look the entry's JID up; a missing group is silently skipped, a found group
gets its `managed` flag set to the requested value. -/
def applyGroupUpdate (registry : List Group) (u : GroupUpdate) :
    Except String (List Group) :=
  match scalarOneOrNone (selectByJid registry u.group_jid) with
  | .error e => .error e
  | .ok none => .ok registry
  | .ok (some _) => .ok (registry.map fun x =>
      if x.group_jid == u.group_jid then { x with managed := u.managed } else x)

/-- Shallow embedding of `update_groups` (lines 168-193): apply the entries
in order, then commit; any exception rolls the whole transaction back
(registry unchanged) and surfaces as a 500. -/
def update_groups (updates : List GroupUpdate) (registry : List Group) :
    Except ApiError UpdateResponse × List Group :=
  match updates.foldlM applyGroupUpdate registry with
  | .error e => (.error (.serverError ("Failed to update groups: " ++ e)), registry)
  | .ok registry' => (.ok { status := "success", updated := updates.length }, registry')

/-! ## Auxiliary definitions used by the claims -/

/-- A string free of the `_` separator used by the id scheme. -/
def noUnderscore (s : String) : Prop := '_' ∉ s.data

instance (s : String) : Decidable (noUnderscore s) := by
  unfold noUnderscore
  infer_instance

/-- The managed flag a group ends up with after a list of update entries is
applied in order: the last entry naming its JID wins, otherwise the initial
value stands. -/
def finalManaged (updates : List GroupUpdate) (jid : String) (init : Bool) : Bool :=
  updates.foldl (fun m u => if u.group_jid == jid then u.managed else m) init

/-- Modelled from the spec (for comparison with the code's behaviour, not
from the source): "If empty, the operation terminates successfully with a
result indicating zero groups and zero records processed — this is not an
error." -/
def spec_zero_success (r : LoadSummary) : Prop :=
  r.status = "success" ∧ r.groups_count = some 0 ∧ r.total_records = some 0

instance (r : LoadSummary) : Decidable (spec_zero_success r) := by
  unfold spec_zero_success
  infer_instance

/-- The hash preimage a produced record's id was derived from,
reconstructed from the record's own fields and the run timestamp. -/
def recordPreimage (ts : Timestamp) (r : KBTopic) : String :=
  idPreimage r.group_jid ts r.subject

/-! ## Claim C1 -/

/-- C1 counterexample: with one submitted topic and a registry whose only
group is unmanaged, the handler terminates without raising and without
calling the Embedding Provider, but its response body is the
status-"error" dictionary of lines 42-46, which does not indicate a
zero-groups/zero-records success as the claim states. -/
theorem claim_C1_counterexample :
    (load_custom_topics_api [⟨"A", "s"⟩] (fun _ => .ok [[1]])
        [⟨"g1", "Group One", false⟩] "2025-01-01 12:00:00.000000" []).response =
      .ok { status := "error", message := "No managed groups found",
            topics_count := none, groups_count := none, total_records := none } ∧
    (load_custom_topics_api [⟨"A", "s"⟩] (fun _ => .ok [[1]])
        [⟨"g1", "Group One", false⟩] "2025-01-01 12:00:00.000000" []).embedCalls = 0 ∧
    ¬ spec_zero_success
        { status := "error", message := "No managed groups found",
          topics_count := none, groups_count := none, total_records := none } :=
  ⟨rfl, rfl, by decide⟩

/-- C1 (amended): when the managed-group set is empty, the handler
terminates without raising, returning the fixed status-"error" body
`{"status": "error", "message": "No managed groups found"}` with no count
fields, the storage is unchanged, and the Embedding Provider is never
invoked. -/
theorem claim_C1 (topics : List CustomTopic)
    (embedder : List String → Except String (List Embedding))
    (registry : List Group) (now : Timestamp) (storage : List KBTopic)
    (hempty : registry.filter (fun g => g.managed) = []) :
    load_custom_topics_api topics embedder registry now storage =
      { response := .ok { status := "error", message := "No managed groups found",
                          topics_count := none, groups_count := none, total_records := none }
        storage := storage
        embedCalls := 0 } := by
  simp [load_custom_topics_api, hempty]

/-- C1 witness: the amended statement evaluated on a concrete registry
with a single unmanaged group. -/
theorem claim_C1_witness :
    ([⟨"g1", "Group One", false⟩] : List Group).filter (fun g => g.managed) = [] ∧
    load_custom_topics_api [⟨"A", "s"⟩] (fun _ => .ok [[1]])
        [⟨"g1", "Group One", false⟩] "2025-01-01 12:00:00.000000" [] =
      { response := .ok { status := "error", message := "No managed groups found",
                          topics_count := none, groups_count := none, total_records := none }
        storage := []
        embedCalls := 0 } :=
  ⟨rfl, claim_C1 _ _ _ _ _ rfl⟩

/-! ## Claim C6 -/

/-- C6: when there is at least one managed group and the Embedding
Provider call fails, the handler re-raises the error to the caller, the
committed storage is unchanged, and the provider was invoked exactly once. -/
theorem claim_C6 (topics : List CustomTopic)
    (embedder : List String → Except String (List Embedding))
    (registry : List Group) (now : Timestamp) (storage : List KBTopic) (e : String)
    (hmanaged : registry.filter (fun g => g.managed) ≠ [])
    (hfail : embedder (topics.map fun t => "# " ++ t.subject ++ "\n" ++ t.summary) = .error e) :
    load_custom_topics_api topics embedder registry now storage =
      { response := .error e, storage := storage, embedCalls := 1 } := by
  have h1 : (registry.filter fun g => g.managed).isEmpty = false := by
    simpa [List.isEmpty_iff] using hmanaged
  simp [load_custom_topics_api, h1, hfail]

/-- C6 witness: a concrete run with one managed group and a failing
embedder aborts with the error and leaves storage empty. -/
theorem claim_C6_witness :
    (([⟨"g1", "Group One", true⟩] : List Group).filter (fun g => g.managed) ≠ []) ∧
    ((fun _ => (.error "boom" : Except String (List Embedding)))
        (([⟨"A", "s"⟩] : List CustomTopic).map fun t => "# " ++ t.subject ++ "\n" ++ t.summary) =
      .error "boom") ∧
    load_custom_topics_api [⟨"A", "s"⟩] (fun _ => .error "boom")
        [⟨"g1", "Group One", true⟩] "2025-01-01 12:00:00.000000" [] =
      { response := .error "boom", storage := [], embedCalls := 1 } :=
  ⟨by decide, rfl, claim_C6 _ _ _ _ _ _ (by decide) rfl⟩

/-! ## Claim C8 -/

/-- C8: toggling a JID that matches no group in the registry yields the
404 NotFound error and leaves the registry exactly as it was: nothing is
created and nothing is modified. -/
theorem claim_C8 (jid : String) (registry : List Group)
    (habs : ∀ g ∈ registry, g.group_jid ≠ jid) :
    toggle_group jid registry = (.error .notFound, registry) := by
  have hsel : selectByJid registry jid = [] := by
    simp only [selectByJid, List.filter_eq_nil_iff]
    intro g hg
    simpa using habs g hg
  simp [toggle_group, hsel, scalarOneOrNone]

/-- C8 witness: toggling `unknown-jid` against a concrete two-group
registry returns NotFound with the registry untouched. -/
theorem claim_C8_witness :
    (∀ g ∈ ([⟨"g1", "Group One", true⟩, ⟨"g2", "Group Two", false⟩] : List Group),
      g.group_jid ≠ "unknown-jid") ∧
    toggle_group "unknown-jid" [⟨"g1", "Group One", true⟩, ⟨"g2", "Group Two", false⟩] =
      (.error .notFound, [⟨"g1", "Group One", true⟩, ⟨"g2", "Group Two", false⟩]) :=
  ⟨by decide, claim_C8 _ _ (by decide)⟩

/-! ## Bulk update: shared lemmas for C9 and C10 -/

/-- Pairwise-distinct JIDs mean a JID query returns zero rows or one. -/
theorem select_short (registry : List Group) (j : String)
    (huniq : registry.Pairwise fun a b => a.group_jid ≠ b.group_jid) :
    selectByJid registry j = [] ∨ ∃ g, selectByJid registry j = [g] := by
  have hp : (selectByJid registry j).Pairwise (fun a b => a.group_jid ≠ b.group_jid) :=
    huniq.filter _
  match hm : selectByJid registry j with
  | [] => exact .inl rfl
  | [g] => exact .inr ⟨g, rfl⟩
  | a :: b :: t =>
    exfalso
    rw [hm] at hp
    have hab : a.group_jid ≠ b.group_jid :=
      (List.pairwise_cons.mp hp).1 b (.head _)
    have ha : a ∈ selectByJid registry j := by rw [hm]; exact .head _
    have hb : b ∈ selectByJid registry j := by rw [hm]; exact .tail _ (.head _)
    have haj : a.group_jid = j := by
      simpa [selectByJid, List.mem_filter] using (List.mem_filter.mp ha).2
    have hbj : b.group_jid = j := by
      simpa [selectByJid, List.mem_filter] using (List.mem_filter.mp hb).2
    exact hab (haj.trans hbj.symm)

/-- With pairwise-distinct JIDs, one loop iteration of `update_groups`
never errors and is the map that sets the matching group's flag (a no-op
when the entry's JID is unknown). -/
theorem applyGroupUpdate_ok (registry : List Group) (u : GroupUpdate)
    (huniq : registry.Pairwise fun a b => a.group_jid ≠ b.group_jid) :
    applyGroupUpdate registry u =
      .ok (registry.map fun x =>
        if x.group_jid == u.group_jid then { x with managed := u.managed } else x) := by
  rcases select_short registry u.group_jid huniq with h | ⟨g, h⟩
  · have hid : ∀ x ∈ registry,
        (if x.group_jid == u.group_jid then { x with managed := u.managed } else x) = x := by
      intro x hx
      have hnm : ¬ (x.group_jid == u.group_jid) = true := by
        have := List.filter_eq_nil_iff.mp h x hx
        simpa [selectByJid] using this
      simp [hnm]
    rw [List.map_congr_left hid, List.map_id']
    simp [applyGroupUpdate, h, scalarOneOrNone]
  · simp [applyGroupUpdate, h, scalarOneOrNone]

/-- Characterization of the whole `update_groups` loop: starting from a
registry with pairwise-distinct JIDs, the fold succeeds and every group
ends with the flag of the last entry naming its JID (its own when none
does). -/
theorem update_loop (updates : List GroupUpdate) :
    ∀ registry : List Group,
      registry.Pairwise (fun a b => a.group_jid ≠ b.group_jid) →
      updates.foldlM applyGroupUpdate registry =
        .ok (registry.map fun g =>
          { g with managed := finalManaged updates g.group_jid g.managed }) := by
  induction updates with
  | nil =>
    intro registry huniq
    have : ∀ g ∈ registry,
        ({ g with managed := finalManaged [] g.group_jid g.managed } : Group) = g := by
      intro g _
      rfl
    rw [List.map_congr_left this, List.map_id']
    rfl
  | cons u rest ih =>
    intro registry huniq
    rw [List.foldlM_cons, applyGroupUpdate_ok registry u huniq]
    have huniq' : (registry.map fun x =>
        if x.group_jid == u.group_jid then { x with managed := u.managed } else x).Pairwise
          (fun a b => a.group_jid ≠ b.group_jid) := by
      rw [List.pairwise_map]
      refine huniq.imp fun {a b} hab => ?_
      have hja : (if a.group_jid == u.group_jid then { a with managed := u.managed } else a).group_jid
          = a.group_jid := by split <;> rfl
      have hjb : (if b.group_jid == u.group_jid then { b with managed := u.managed } else b).group_jid
          = b.group_jid := by split <;> rfl
      rw [hja, hjb]
      exact hab
    have hbind : (do
        let init ← Except.ok (registry.map fun x =>
          if x.group_jid == u.group_jid then { x with managed := u.managed } else x)
        rest.foldlM applyGroupUpdate init) =
        rest.foldlM applyGroupUpdate (registry.map fun x =>
          if x.group_jid == u.group_jid then { x with managed := u.managed } else x) := rfl
    rw [hbind, ih _ huniq', List.map_map]
    refine congrArg Except.ok (List.map_congr_left ?_)
    intro g _
    by_cases hc : g.group_jid = u.group_jid
    · simp [Function.comp, finalManaged, hc]
    · simp [Function.comp, finalManaged, hc, Ne.symm hc]

/-! ## Claim C9 -/

/-- C9: against a registry with pairwise-distinct JIDs, a bulk update
never errors: the result is the success response, the final registry is
the pointwise remap in which each group carries the flag requested by the
last entry naming its JID (unknown JIDs match no group and are therefore
silently skipped), and the group count and the JID sequence are exactly
those of the original registry — nothing is created or deleted. -/
theorem claim_C9 (updates : List GroupUpdate) (registry : List Group)
    (huniq : registry.Pairwise fun a b => a.group_jid ≠ b.group_jid) :
    update_groups updates registry =
      (.ok { status := "success", updated := updates.length },
       registry.map fun g =>
         { g with managed := finalManaged updates g.group_jid g.managed }) ∧
    ((update_groups updates registry).2).length = registry.length ∧
    ((update_groups updates registry).2).map (fun g => g.group_jid) =
      registry.map fun g => g.group_jid := by
  have h := update_loop updates registry huniq
  have hmain : update_groups updates registry =
      (.ok { status := "success", updated := updates.length },
       registry.map fun g =>
         { g with managed := finalManaged updates g.group_jid g.managed }) := by
    simp [update_groups, h]
  refine ⟨hmain, ?_, ?_⟩
  · rw [hmain]
    simp
  · rw [hmain]
    simp [List.map_map]

/-- C9 witness: a two-entry request (one known JID set to false, one
unknown JID) against a concrete two-group registry succeeds, flips only
the known group, and preserves the registry's length and JIDs. -/
theorem claim_C9_witness :
    (([⟨"g1", "Group One", true⟩, ⟨"g2", "Group Two", false⟩] : List Group).Pairwise
      fun a b => a.group_jid ≠ b.group_jid) ∧
    update_groups [⟨"g1", false⟩, ⟨"unknown-jid", true⟩]
        [⟨"g1", "Group One", true⟩, ⟨"g2", "Group Two", false⟩] =
      (.ok { status := "success", updated := 2 },
       ([⟨"g1", "Group One", true⟩, ⟨"g2", "Group Two", false⟩] : List Group).map fun g =>
         { g with managed :=
             finalManaged [⟨"g1", false⟩, ⟨"unknown-jid", true⟩] g.group_jid g.managed }) ∧
    ((update_groups [⟨"g1", false⟩, ⟨"unknown-jid", true⟩]
        [⟨"g1", "Group One", true⟩, ⟨"g2", "Group Two", false⟩]).2).length = 2 ∧
    ((update_groups [⟨"g1", false⟩, ⟨"unknown-jid", true⟩]
        [⟨"g1", "Group One", true⟩, ⟨"g2", "Group Two", false⟩]).2).map (fun g => g.group_jid) =
      ([⟨"g1", "Group One", true⟩, ⟨"g2", "Group Two", false⟩] : List Group).map
        fun g => g.group_jid :=
  ⟨by decide, claim_C9 _ _ (by decide)⟩

/-! ## Claim C10 -/

/-- C10: the `updated` count in the success response of a bulk update is
the length of the request list, regardless of how many entries named
unknown JIDs and were skipped. -/
theorem claim_C10 (updates : List GroupUpdate) (registry : List Group)
    (huniq : registry.Pairwise fun a b => a.group_jid ≠ b.group_jid) :
    (update_groups updates registry).1 =
      .ok { status := "success", updated := updates.length } := by
  simp [update_groups, update_loop updates registry huniq]

/-- C10 witness: a single-entry request naming only an unknown JID still
reports `updated = 1` even though no group changed. -/
theorem claim_C10_witness :
    (([⟨"g1", "Group One", true⟩] : List Group).Pairwise
      fun a b => a.group_jid ≠ b.group_jid) ∧
    (update_groups [⟨"unknown-jid", true⟩] [⟨"g1", "Group One", true⟩]).1 =
      .ok { status := "success", updated := 1 } :=
  ⟨by decide, claim_C10 _ _ (by decide)⟩

/-! ## Claim C7 -/

/-- Setting the managed flag on the matching group commutes with the JID
query: querying the remapped registry returns the remapped query result. -/
theorem selectByJid_map_setManaged (registry : List Group) (jid : String) (m : Bool) :
    selectByJid (registry.map fun x =>
      if x.group_jid == jid then { x with managed := m } else x) jid =
    (selectByJid registry jid).map fun x =>
      if x.group_jid == jid then { x with managed := m } else x := by
  unfold selectByJid
  rw [List.filter_map]
  congr 1
  apply List.filter_congr
  intro a _
  by_cases hc : a.group_jid = jid <;> simp [hc, Function.comp]

/-- C7: when the JID query returns exactly one group, toggling twice
restores the registry exactly, and each toggle's response carries the
group's new managed state (first the flipped flag, then the original). -/
theorem claim_C7 (jid : String) (registry : List Group) (g : Group)
    (hsel : selectByJid registry jid = [g]) :
    (toggle_group jid registry).1 =
      .ok { group_jid := g.group_jid, group_name := g.group_name, managed := !g.managed } ∧
    (toggle_group jid (toggle_group jid registry).2).1 =
      .ok { group_jid := g.group_jid, group_name := g.group_name, managed := g.managed } ∧
    (toggle_group jid (toggle_group jid registry).2).2 = registry := by
  have hgj : (g.group_jid == jid) = true := by
    have hg : g ∈ selectByJid registry jid := by
      rw [hsel]
      exact List.mem_singleton_self g
    exact (List.mem_filter.mp hg).2
  have hmem : ∀ a ∈ registry, (a.group_jid == jid) = true → a = g := by
    intro a ha haj
    have hma : a ∈ selectByJid registry jid := List.mem_filter.mpr ⟨ha, haj⟩
    rw [hsel] at hma
    simpa using hma
  have h1 : toggle_group jid registry =
      (.ok { group_jid := g.group_jid, group_name := g.group_name, managed := !g.managed },
       registry.map fun x =>
         if x.group_jid == jid then { x with managed := !g.managed } else x) := by
    simp [toggle_group, hsel, scalarOneOrNone]
  have hgjp : g.group_jid = jid := by simpa using hgj
  have hsel1 : selectByJid (registry.map fun x =>
      if x.group_jid == jid then { x with managed := !g.managed } else x) jid =
      [{ g with managed := !g.managed }] := by
    rw [selectByJid_map_setManaged, hsel]
    simp [hgjp]
  have h2 : toggle_group jid (registry.map fun x =>
      if x.group_jid == jid then { x with managed := !g.managed } else x) =
      (.ok { group_jid := g.group_jid, group_name := g.group_name, managed := g.managed },
       (registry.map fun x =>
         if x.group_jid == jid then { x with managed := !g.managed } else x).map fun x =>
           if x.group_jid == jid then { x with managed := g.managed } else x) := by
    unfold toggle_group
    rw [hsel1]
    simp [scalarOneOrNone]
  have hback : ((registry.map fun x =>
      if x.group_jid == jid then { x with managed := !g.managed } else x).map fun x =>
        if x.group_jid == jid then { x with managed := g.managed } else x) = registry := by
    rw [List.map_map]
    have hpt : ∀ a ∈ registry,
        ((fun x => if x.group_jid == jid then { x with managed := g.managed } else x) ∘
         (fun x => if x.group_jid == jid then { x with managed := !g.managed } else x)) a =
        (fun a => a) a := by
      intro a ha
      by_cases hc : (a.group_jid == jid) = true
      · have hag := hmem a ha hc
        subst hag
        simp [Function.comp, hc]
      · simp [Function.comp, hc]
    rw [List.map_congr_left hpt, List.map_id']
  rw [h1]
  constructor
  · rfl
  · rw [h2, hback]
    exact ⟨rfl, rfl⟩

/-- C7 witness: toggling `g1` twice in a concrete two-group registry
returns it to its original state, with each response reporting the
then-current flag. -/
theorem claim_C7_witness :
    selectByJid [⟨"g1", "Group One", true⟩, ⟨"g2", "Group Two", false⟩] "g1" =
      [⟨"g1", "Group One", true⟩] ∧
    (toggle_group "g1" [⟨"g1", "Group One", true⟩, ⟨"g2", "Group Two", false⟩]).1 =
      .ok { group_jid := "g1", group_name := "Group One", managed := false } ∧
    (toggle_group "g1"
      (toggle_group "g1" [⟨"g1", "Group One", true⟩, ⟨"g2", "Group Two", false⟩]).2).1 =
      .ok { group_jid := "g1", group_name := "Group One", managed := true } ∧
    (toggle_group "g1"
      (toggle_group "g1" [⟨"g1", "Group One", true⟩, ⟨"g2", "Group Two", false⟩]).2).2 =
      [⟨"g1", "Group One", true⟩, ⟨"g2", "Group Two", false⟩] :=
  ⟨rfl, claim_C7 "g1" _ ⟨"g1", "Group One", true⟩ rfl⟩

/-! ## Claim C3 -/

/-- Splitting at a separator character is unambiguous when the text before
the separator is free of it. -/
theorem underscore_split (a1 : List Char) :
    ∀ (a2 r1 r2 : List Char), '_' ∉ a1 → '_' ∉ a2 →
      a1 ++ '_' :: r1 = a2 ++ '_' :: r2 → a1 = a2 ∧ r1 = r2 := by
  induction a1 with
  | nil =>
    intro a2 r1 r2 _ h2 h
    cases a2 with
    | nil => simpa using h
    | cons c t =>
      exfalso
      simp only [List.nil_append, List.cons_append, List.cons.injEq] at h
      exact h2 (by rw [h.1]; exact List.mem_cons_self c t)
  | cons c t ih =>
    intro a2 r1 r2 h1 h2 h
    cases a2 with
    | nil =>
      exfalso
      simp only [List.nil_append, List.cons_append, List.cons.injEq] at h
      exact h1 (by rw [← h.1]; exact List.mem_cons_self c t)
    | cons d u =>
      simp only [List.cons_append, List.cons.injEq] at h
      have ht : '_' ∉ t := fun hm => h1 (List.mem_cons_of_mem c hm)
      have hu : '_' ∉ u := fun hm => h2 (List.mem_cons_of_mem d hm)
      obtain ⟨he, hr⟩ := ih u r1 r2 ht hu h.2
      exact ⟨by rw [h.1, he], hr⟩

/-- When neither the JID nor the timestamp contains the `_` separator, the
id scheme's concatenation determines its three components. -/
theorem idPreimage_inj (g1 t1 s1 g2 t2 s2 : String)
    (hg1 : noUnderscore g1) (ht1 : noUnderscore t1)
    (hg2 : noUnderscore g2) (ht2 : noUnderscore t2)
    (h : idPreimage g1 t1 s1 = idPreimage g2 t2 s2) :
    g1 = g2 ∧ t1 = t2 ∧ s1 = s2 := by
  have hd : g1.data ++ '_' :: (t1.data ++ '_' :: s1.data) =
      g2.data ++ '_' :: (t2.data ++ '_' :: s2.data) := by
    have hdata := congrArg String.data h
    simpa [idPreimage, String.data_append] using hdata
  obtain ⟨e1, e2⟩ := underscore_split g1.data g2.data _ _ hg1 hg2 hd
  obtain ⟨e3, e4⟩ := underscore_split t1.data t2.data _ _ ht1 ht2 e2
  exact ⟨String.ext e1, String.ext e3, String.ext e4⟩

/-- Every hex digit produced by the digest encoder is one of the sixteen
lowercase hexadecimal characters. -/
theorem hexDigit_mem (n : Nat) : hexDigit n ∈ hexDigits := by
  unfold hexDigit
  have hlt : n % 16 < hexDigits.length := Nat.mod_lt n (by decide)
  rw [List.getD_eq_getElem hexDigits '0' hlt]
  exact List.getElem_mem hlt

/-- Every character of a rendered word is a lowercase hex digit. -/
theorem hexWord_mem (n : Nat) : ∀ c ∈ hexWord n, c ∈ hexDigits := by
  intro c hc
  simp only [hexWord, List.mem_cons, List.not_mem_nil, or_false] at hc
  rcases hc with h | h | h | h | h | h | h | h <;> exact h ▸ hexDigit_mem _

/-- A hex digest is always 64 characters long. -/
theorem hexDigest_length (st : Hash8) : (hexDigest st).length = 64 := rfl

/-- Every character of a hex digest is a lowercase hex digit. -/
theorem hexDigest_mem (st : Hash8) : ∀ c ∈ (hexDigest st).data, c ∈ hexDigits := by
  intro c hc
  simp only [hexDigest, List.mem_append] at hc
  rcases hc with ((((((h | h) | h) | h) | h) | h) | h) | h <;> exact hexWord_mem _ c h

/-- C3 counterexample: the triples `("a_b", "c", "d")` and
`("a", "b_c", "d")` are distinct, yet the `_`-separated concatenation
feeds the identical string `"a_b_c_d"` to the hash, so the derived ids
coincide: the scheme is not unambiguous for arbitrary inputs. -/
theorem claim_C3_counterexample :
    (("a_b", "c", "d") : String × String × String) ≠ ("a", "b_c", "d") ∧
    idPreimage "a_b" "c" "d" = idPreimage "a" "b_c" "d" ∧
    derive_id "a_b" "c" "d" = derive_id "a" "b_c" "d" := by
  have hpre : idPreimage "a_b" "c" "d" = idPreimage "a" "b_c" "d" := by decide
  exact ⟨by decide, hpre, congrArg sha256Hex hpre⟩

/-- C3 (amended): `derive_id` is a pure function (identical triples give
identical output — definitional in this functional model), its output is a
fixed-length (64) lowercase-hexadecimal string, and the concatenation
scheme is unambiguous for triples whose `group_jid` and timestamp contain
no underscore: two such distinct triples always feed distinct strings to
the hash. -/
theorem claim_C3 (g1 t1 s1 g2 t2 s2 : String)
    (hg1 : noUnderscore g1) (ht1 : noUnderscore t1)
    (hg2 : noUnderscore g2) (ht2 : noUnderscore t2) :
    derive_id g1 t1 s1 = derive_id g1 t1 s1 ∧
    (derive_id g1 t1 s1).length = 64 ∧
    (∀ c ∈ (derive_id g1 t1 s1).data, c ∈ hexDigits) ∧
    ((g1, t1, s1) ≠ (g2, t2, s2) → idPreimage g1 t1 s1 ≠ idPreimage g2 t2 s2) := by
  refine ⟨rfl, hexDigest_length _, hexDigest_mem _, ?_⟩
  intro hne heq
  obtain ⟨e1, e2, e3⟩ := idPreimage_inj g1 t1 s1 g2 t2 s2 hg1 ht1 hg2 ht2 heq
  exact hne (by rw [e1, e2, e3])

/-- C3 witness: the amended statement instantiated at two concrete
underscore-free triples (a realistic JID/timestamp shape). -/
theorem claim_C3_witness :
    noUnderscore "group1@g.us" ∧ noUnderscore "2025-01-01 12:00:00.000000" ∧
    noUnderscore "group2@g.us" ∧ noUnderscore "2025-01-01 12:00:00.000000" ∧
    (derive_id "group1@g.us" "2025-01-01 12:00:00.000000" "A" =
      derive_id "group1@g.us" "2025-01-01 12:00:00.000000" "A" ∧
    (derive_id "group1@g.us" "2025-01-01 12:00:00.000000" "A").length = 64 ∧
    (∀ c ∈ (derive_id "group1@g.us" "2025-01-01 12:00:00.000000" "A").data, c ∈ hexDigits) ∧
    ((("group1@g.us", "2025-01-01 12:00:00.000000", "A") :
        String × String × String) ≠ ("group2@g.us", "2025-01-01 12:00:00.000000", "B") →
      idPreimage "group1@g.us" "2025-01-01 12:00:00.000000" "A" ≠
        idPreimage "group2@g.us" "2025-01-01 12:00:00.000000" "B")) :=
  ⟨by decide, by decide, by decide, by decide,
   claim_C3 "group1@g.us" "2025-01-01 12:00:00.000000" "A"
     "group2@g.us" "2025-01-01 12:00:00.000000" "B"
     (by decide) (by decide) (by decide) (by decide)⟩

/-! ## Ingestion loop lemmas shared by C2, C4, C5 -/

/-- When the provider honours its length contract, each group's record
list has one record per topic. -/
theorem docModels_length (topics : List CustomTopic) (embs : List Embedding)
    (ts : Timestamp) (g : Group) (hlen : embs.length = topics.length) :
    (docModels topics embs ts g).length = topics.length := by
  simp [docModels, hlen]

/-- The fan-out loop's committed storage is the bulk upsert of all
produced records, in loop order. -/
theorem loadLoop_storage (topics : List CustomTopic) (embs : List Embedding)
    (ts : Timestamp) (gl : List Group) :
    ∀ (st : List KBTopic) (n : Nat),
      (gl.foldl (loadStep topics embs ts) (st, n)).1 =
        bulk_upsert st (producedRecords topics embs ts gl) := by
  induction gl with
  | nil =>
    intro st n
    simp [producedRecords, bulk_upsert]
  | cons g gl ih =>
    intro st n
    rw [List.foldl_cons]
    show ((gl.foldl (loadStep topics embs ts)
      (bulk_upsert st (docModels topics embs ts g),
       n + (docModels topics embs ts g).length))).1 = _
    rw [ih]
    simp [producedRecords, List.flatMap_cons, bulk_upsert, List.foldl_append]

/-- The fan-out loop's `total_loaded` counter is the number of produced
records. -/
theorem loadLoop_total (topics : List CustomTopic) (embs : List Embedding)
    (ts : Timestamp) (gl : List Group) :
    ∀ (st : List KBTopic) (n : Nat),
      (gl.foldl (loadStep topics embs ts) (st, n)).2 =
        n + (producedRecords topics embs ts gl).length := by
  induction gl with
  | nil =>
    intro st n
    simp [producedRecords]
  | cons g gl ih =>
    intro st n
    rw [List.foldl_cons]
    show ((gl.foldl (loadStep topics embs ts)
      (bulk_upsert st (docModels topics embs ts g),
       n + (docModels topics embs ts g).length))).2 = _
    rw [ih]
    simp [producedRecords, List.flatMap_cons]
    omega

/-! ## Claim C5 -/

/-- C5: every record produced by one run carries the single run timestamp
captured before the fan-out loop, and the storage the run commits is
exactly the bulk upsert of those records into the previous storage. -/
theorem claim_C5 (topics : List CustomTopic)
    (embedder : List String → Except String (List Embedding))
    (registry : List Group) (now : Timestamp) (storage : List KBTopic)
    (embs : List Embedding)
    (hok : embedder (topics.map fun t => "# " ++ t.subject ++ "\n" ++ t.summary) = .ok embs)
    (hmanaged : registry.filter (fun g => g.managed) ≠ []) :
    (∀ r ∈ producedRecords topics embs now (registry.filter fun g => g.managed),
      r.start_time = now) ∧
    (load_custom_topics_api topics embedder registry now storage).storage =
      bulk_upsert storage
        (producedRecords topics embs now (registry.filter fun g => g.managed)) := by
  constructor
  · intro r hr
    simp only [producedRecords] at hr
    obtain ⟨g, _, hrg⟩ := List.mem_flatMap.mp hr
    simp only [docModels] at hrg
    obtain ⟨te, _, hre⟩ := List.mem_map.mp hrg
    subst hre
    rfl
  · have h1 : (registry.filter fun g => g.managed).isEmpty = false := by
      simpa [List.isEmpty_iff] using hmanaged
    simp [load_custom_topics_api, h1, hok, loadLoop_storage]

/-- C5 witness: a concrete run with one topic and two managed groups —
both produced records carry the run timestamp and the committed storage is
their upsert. -/
theorem claim_C5_witness :
    ((fun _ => (.ok [[1]] : Except String (List Embedding)))
        (([⟨"A", "s"⟩] : List CustomTopic).map fun t => "# " ++ t.subject ++ "\n" ++ t.summary) =
      .ok [[1]]) ∧
    (([⟨"g1", "Group One", true⟩, ⟨"g2", "Group Two", true⟩] : List Group).filter
      (fun g => g.managed) ≠ []) ∧
    ((∀ r ∈ producedRecords [⟨"A", "s"⟩] [[1]] "2025-01-01 12:00:00.000000"
        (([⟨"g1", "Group One", true⟩, ⟨"g2", "Group Two", true⟩] : List Group).filter
          fun g => g.managed),
      r.start_time = "2025-01-01 12:00:00.000000") ∧
    (load_custom_topics_api [⟨"A", "s"⟩] (fun _ => .ok [[1]])
        [⟨"g1", "Group One", true⟩, ⟨"g2", "Group Two", true⟩]
        "2025-01-01 12:00:00.000000" []).storage =
      bulk_upsert []
        (producedRecords [⟨"A", "s"⟩] [[1]] "2025-01-01 12:00:00.000000"
          (([⟨"g1", "Group One", true⟩, ⟨"g2", "Group Two", true⟩] : List Group).filter
            fun g => g.managed))) :=
  ⟨rfl, by decide,
   claim_C5 [⟨"A", "s"⟩] (fun _ => .ok [[1]])
     [⟨"g1", "Group One", true⟩, ⟨"g2", "Group Two", true⟩]
     "2025-01-01 12:00:00.000000" [] [[1]] rfl (by decide)⟩

/-! ## Claim C4 -/

/-- Within one run the timestamp and subject suffix of the hash input are
shared, so records for the same topic under groups with different JIDs
have different hash inputs — with no underscore condition needed. -/
theorem idPreimage_ne_of_jid_ne (j1 j2 : String) (ts s : Timestamp)
    (hne : j1 ≠ j2) : idPreimage j1 ts s ≠ idPreimage j2 ts s := by
  intro heq
  have hdq := congrArg String.data heq
  have hu : ("_" : String).data = ['_'] := rfl
  simp only [idPreimage, String.data_append, hu, List.append_assoc,
    List.singleton_append] at hdq
  exact hne (String.ext (List.append_cancel_right hdq))

/-- C4: in a successful run the Embedding Provider is invoked exactly once
for the whole batch, and for any topic position `i` and two managed groups
with different JIDs, the two produced records have identical embedding
vectors, different hash inputs, and — absent a SHA-256 collision between
those two hash inputs (the final hypothesis) — different ids. -/
theorem claim_C4 (topics : List CustomTopic)
    (embedder : List String → Except String (List Embedding))
    (registry : List Group) (now : Timestamp) (storage : List KBTopic)
    (embs : List Embedding) (g1 g2 : Group) (i : Nat)
    (hok : embedder (topics.map fun t => "# " ++ t.subject ++ "\n" ++ t.summary) = .ok embs)
    (hg1 : g1 ∈ registry.filter fun g => g.managed)
    (hne : g1.group_jid ≠ g2.group_jid)
    (h1 : i < (docModels topics embs now g1).length)
    (h2 : i < (docModels topics embs now g2).length)
    (hcoll : sha256Hex (idPreimage g1.group_jid now
          (((docModels topics embs now g1).get ⟨i, h1⟩).subject)) =
        sha256Hex (idPreimage g2.group_jid now
          (((docModels topics embs now g2).get ⟨i, h2⟩).subject)) →
        idPreimage g1.group_jid now (((docModels topics embs now g1).get ⟨i, h1⟩).subject) =
          idPreimage g2.group_jid now (((docModels topics embs now g2).get ⟨i, h2⟩).subject)) :
    (load_custom_topics_api topics embedder registry now storage).embedCalls = 1 ∧
    ((docModels topics embs now g1).get ⟨i, h1⟩).embedding =
      ((docModels topics embs now g2).get ⟨i, h2⟩).embedding ∧
    idPreimage (((docModels topics embs now g1).get ⟨i, h1⟩).group_jid) now
        (((docModels topics embs now g1).get ⟨i, h1⟩).subject) ≠
      idPreimage (((docModels topics embs now g2).get ⟨i, h2⟩).group_jid) now
        (((docModels topics embs now g2).get ⟨i, h2⟩).subject) ∧
    ((docModels topics embs now g1).get ⟨i, h1⟩).id ≠
      ((docModels topics embs now g2).get ⟨i, h2⟩).id := by
  have hz : i < (topics.zip embs).length := by
    simpa [docModels] using h1
  have e1 : (docModels topics embs now g1).get ⟨i, h1⟩ =
      { id := derive_id g1.group_jid now ((topics.zip embs).get ⟨i, hz⟩).1.subject
        embedding := ((topics.zip embs).get ⟨i, hz⟩).2
        group_jid := g1.group_jid
        start_time := now
        speakers := ""
        summary := ((topics.zip embs).get ⟨i, hz⟩).1.summary
        subject := ((topics.zip embs).get ⟨i, hz⟩).1.subject } := by
    simp [docModels, List.get_eq_getElem, List.getElem_map]
  have e2 : (docModels topics embs now g2).get ⟨i, h2⟩ =
      { id := derive_id g2.group_jid now ((topics.zip embs).get ⟨i, hz⟩).1.subject
        embedding := ((topics.zip embs).get ⟨i, hz⟩).2
        group_jid := g2.group_jid
        start_time := now
        speakers := ""
        summary := ((topics.zip embs).get ⟨i, hz⟩).1.summary
        subject := ((topics.zip embs).get ⟨i, hz⟩).1.subject } := by
    simp [docModels, List.get_eq_getElem, List.getElem_map]
  have hpre : idPreimage g1.group_jid now ((topics.zip embs).get ⟨i, hz⟩).1.subject ≠
      idPreimage g2.group_jid now ((topics.zip embs).get ⟨i, hz⟩).1.subject :=
    idPreimage_ne_of_jid_ne _ _ _ _ hne
  refine ⟨?_, ?_, ?_, ?_⟩
  · have hfe : (registry.filter fun g => g.managed).isEmpty = false := by
      simpa [List.isEmpty_iff] using List.ne_nil_of_mem hg1
    simp [load_custom_topics_api, hfe, hok]
  · rw [e1, e2]
  · rw [e1, e2]
    exact hpre
  · rw [e1, e2] at hcoll ⊢
    intro hid
    exact hpre (hcoll hid)

set_option maxRecDepth 1000000 in
/-- C4 witness: one topic, two managed groups — one embed call, identical
embeddings, distinct hash inputs, and (by computing both SHA-256 digests)
distinct ids. -/
theorem claim_C4_witness :
    ((fun _ => (.ok [[1]] : Except String (List Embedding)))
        (([⟨"A", "s"⟩] : List CustomTopic).map fun t => "# " ++ t.subject ++ "\n" ++ t.summary) =
      .ok [[1]]) ∧
    (⟨"g1", "Group One", true⟩ : Group) ∈
      (([⟨"g1", "Group One", true⟩, ⟨"g2", "Group Two", true⟩] : List Group).filter
        fun g => g.managed) ∧
    ("g1" : String) ≠ "g2" ∧
    (load_custom_topics_api [⟨"A", "s"⟩] (fun _ => .ok [[1]])
        [⟨"g1", "Group One", true⟩, ⟨"g2", "Group Two", true⟩]
        "2025-01-01 12:00:00.000000" []).embedCalls = 1 ∧
    ((docModels [⟨"A", "s"⟩] [[1]] "2025-01-01 12:00:00.000000"
        ⟨"g1", "Group One", true⟩).get ⟨0, by decide⟩).embedding =
      ((docModels [⟨"A", "s"⟩] [[1]] "2025-01-01 12:00:00.000000"
        ⟨"g2", "Group Two", true⟩).get ⟨0, by decide⟩).embedding ∧
    ((docModels [⟨"A", "s"⟩] [[1]] "2025-01-01 12:00:00.000000"
        ⟨"g1", "Group One", true⟩).get ⟨0, by decide⟩).id ≠
      ((docModels [⟨"A", "s"⟩] [[1]] "2025-01-01 12:00:00.000000"
        ⟨"g2", "Group Two", true⟩).get ⟨0, by decide⟩).id := by
  have h := claim_C4 [⟨"A", "s"⟩] (fun _ => .ok [[1]])
    [⟨"g1", "Group One", true⟩, ⟨"g2", "Group Two", true⟩]
    "2025-01-01 12:00:00.000000" [] [[1]]
    ⟨"g1", "Group One", true⟩ ⟨"g2", "Group Two", true⟩ 0
    rfl (by decide) (by decide) (by decide) (by decide)
    (fun hs => absurd hs (by decide))
  exact ⟨rfl, by decide, by decide, h.1, h.2.1, h.2.2.2⟩

/-! ## Claim C2 -/

/-- C2 counterexample: two submissions sharing the subject "A" (with
different summaries) against one managed group produce `T × G = 2`
records, but their ids coincide — the id hashes only
`(group_jid, timestamp, subject)`, not the summary — so the records do
not each have a unique id. -/
theorem claim_C2_counterexample :
    (producedRecords [⟨"A", "s1"⟩, ⟨"A", "s2"⟩] [[1], [2]] "2025-01-01 12:00:00.000000"
        [⟨"g1", "Group One", true⟩]).length = 2 * 1 ∧
    ¬ ((producedRecords [⟨"A", "s1"⟩, ⟨"A", "s2"⟩] [[1], [2]] "2025-01-01 12:00:00.000000"
        [⟨"g1", "Group One", true⟩]).map fun r => r.id).Nodup := by
  constructor
  · rfl
  · intro h
    have hmap : ((producedRecords [⟨"A", "s1"⟩, ⟨"A", "s2"⟩] [[1], [2]]
        "2025-01-01 12:00:00.000000" [⟨"g1", "Group One", true⟩]).map fun r => r.id) =
        [derive_id "g1" "2025-01-01 12:00:00.000000" "A",
         derive_id "g1" "2025-01-01 12:00:00.000000" "A"] := rfl
    rw [hmap] at h
    simp at h

/-- When the provider honours its length contract, the produced-record
count is exactly topics × groups. -/
theorem producedRecords_length (topics : List CustomTopic) (embs : List Embedding)
    (ts : Timestamp) (hlen : embs.length = topics.length) :
    ∀ gl : List Group,
      (producedRecords topics embs ts gl).length = topics.length * gl.length := by
  intro gl
  induction gl with
  | nil => simp [producedRecords]
  | cons g gl ih =>
    simp only [producedRecords, List.flatMap_cons, List.length_append] at ih ⊢
    rw [ih, docModels_length _ _ _ _ hlen, List.length_cons]
    ring

/-- The hash preimages of the produced records, computed group by group
and topic by topic. -/
theorem producedPreimages_eq (topics : List CustomTopic) (embs : List Embedding)
    (ts : Timestamp) (gl : List Group) (hlen : embs.length = topics.length) :
    (producedRecords topics embs ts gl).map (recordPreimage ts) =
      gl.flatMap fun g => topics.map fun t => idPreimage g.group_jid ts t.subject := by
  rw [producedRecords, List.map_flatMap]
  congr 1
  funext g
  simp only [docModels, List.map_map]
  have hcomp : (recordPreimage ts ∘ fun te : CustomTopic × Embedding =>
      ({ id := derive_id g.group_jid ts te.1.subject
         embedding := te.2
         group_jid := g.group_jid
         start_time := ts
         speakers := ""
         summary := te.1.summary
         subject := te.1.subject } : KBTopic)) =
      (fun t : CustomTopic => idPreimage g.group_jid ts t.subject) ∘ Prod.fst := rfl
  rw [hcomp, ← List.map_map, List.map_fst_zip _ _ (le_of_eq hlen.symm)]

/-- Distinct subjects and distinct underscore-free JIDs (with an
underscore-free timestamp) give pairwise-distinct hash preimages. -/
theorem producedPreimages_nodup (topics : List CustomTopic) (ts : Timestamp)
    (gl : List Group)
    (hsub : (topics.map fun t => t.subject).Nodup)
    (hjid : (gl.map fun g => g.group_jid).Nodup)
    (hgu : ∀ g ∈ gl, noUnderscore g.group_jid)
    (htu : noUnderscore ts) :
    (gl.flatMap fun g => topics.map fun t => idPreimage g.group_jid ts t.subject).Nodup := by
  rw [List.nodup_flatMap]
  constructor
  · intro g hg
    have hcomp : (topics.map fun t => idPreimage g.group_jid ts t.subject) =
        (topics.map fun t => t.subject).map fun s => idPreimage g.group_jid ts s := by
      rw [List.map_map]
      rfl
    rw [hcomp]
    refine List.Nodup.map_on ?_ hsub
    intro s1 _ s2 _ he
    exact (idPreimage_inj g.group_jid ts s1 g.group_jid ts s2
      (hgu g hg) htu (hgu g hg) htu he).2.2
  · have hp : gl.Pairwise fun a b => a.group_jid ≠ b.group_jid :=
      List.pairwise_map.mp hjid
    refine hp.imp_of_mem ?_
    intro a b ha hb hne
    intro p hpa hpb
    obtain ⟨t1, _, h1⟩ := List.mem_map.mp hpa
    obtain ⟨t2, _, h2⟩ := List.mem_map.mp hpb
    obtain ⟨hj, _, _⟩ := idPreimage_inj a.group_jid ts t1.subject b.group_jid ts t2.subject
      (hgu a ha) htu (hgu b hb) htu (h1.trans h2.symm)
    exact hne hj

/-- C2 (amended): for a non-empty topic list with pairwise-distinct
subjects and a non-empty managed-group set with pairwise-distinct,
underscore-free JIDs and an underscore-free run timestamp, a single
successful ingestion produces exactly `T × G` records whose hash inputs
are pairwise distinct — hence, absent a SHA-256 collision among those
inputs (the final hypothesis), each record has a unique id — and the
returned summary reports `topics_count = T`, `groups_count = G`,
`total_records = T × G`. -/
theorem claim_C2 (topics : List CustomTopic)
    (embedder : List String → Except String (List Embedding))
    (registry : List Group) (now : Timestamp) (storage : List KBTopic)
    (embs : List Embedding)
    (hok : embedder (topics.map fun t => "# " ++ t.subject ++ "\n" ++ t.summary) = .ok embs)
    (hlen : embs.length = topics.length)
    (_hT : topics ≠ [])
    (hG : registry.filter (fun g => g.managed) ≠ [])
    (hsub : (topics.map fun t => t.subject).Nodup)
    (hjid : ((registry.filter fun g => g.managed).map fun g => g.group_jid).Nodup)
    (hgu : ∀ g ∈ registry.filter (fun g => g.managed), noUnderscore g.group_jid)
    (htu : noUnderscore now)
    (hhash : ∀ p ∈ (producedRecords topics embs now (registry.filter fun g => g.managed)).map
          (recordPreimage now),
        ∀ q ∈ (producedRecords topics embs now (registry.filter fun g => g.managed)).map
          (recordPreimage now),
        sha256Hex p = sha256Hex q → p = q) :
    (producedRecords topics embs now (registry.filter fun g => g.managed)).length =
      topics.length * (registry.filter fun g => g.managed).length ∧
    ((producedRecords topics embs now (registry.filter fun g => g.managed)).map
      fun r => r.id).Nodup ∧
    (load_custom_topics_api topics embedder registry now storage).response =
      .ok { status := "success"
            message := "Loaded " ++ toString topics.length ++ " topics for " ++
                       toString (registry.filter fun g => g.managed).length ++ " groups"
            topics_count := some topics.length
            groups_count := some (registry.filter fun g => g.managed).length
            total_records :=
              some (topics.length * (registry.filter fun g => g.managed).length) } := by
  refine ⟨producedRecords_length topics embs now hlen _, ?_, ?_⟩
  · have hids : ((producedRecords topics embs now (registry.filter fun g => g.managed)).map
        fun r => r.id) =
        ((producedRecords topics embs now (registry.filter fun g => g.managed)).map
          (recordPreimage now)).map sha256Hex := by
      rw [List.map_map]
      apply List.map_congr_left
      intro r hr
      simp only [producedRecords] at hr
      obtain ⟨g, _, hrg⟩ := List.mem_flatMap.mp hr
      simp only [docModels] at hrg
      obtain ⟨te, _, hre⟩ := List.mem_map.mp hrg
      subst hre
      rfl
    rw [hids]
    refine List.Nodup.map_on hhash ?_
    rw [producedPreimages_eq topics embs now _ hlen]
    exact producedPreimages_nodup topics now _ hsub hjid hgu htu
  · have hfe : (registry.filter fun g => g.managed).isEmpty = false := by
      simpa [List.isEmpty_iff] using hG
    simp [load_custom_topics_api, hfe, hok, loadLoop_total,
      producedRecords_length topics embs now hlen]

set_option maxRecDepth 1000000 in
/-- C2 witness: one topic, two managed groups with underscore-free JIDs —
two records, pairwise-distinct ids (both digests computed), and the
success summary reporting 1 topic, 2 groups, 2 records. -/
theorem claim_C2_witness :
    ((fun _ => (.ok [[1]] : Except String (List Embedding)))
        (([⟨"A", "s"⟩] : List CustomTopic).map fun t => "# " ++ t.subject ++ "\n" ++ t.summary) =
      .ok [[1]]) ∧
    ((([⟨"A", "s"⟩] : List CustomTopic) ≠ []) ∧
     (([⟨"g1", "Group One", true⟩, ⟨"g2", "Group Two", true⟩] : List Group).filter
       (fun g => g.managed) ≠ []) ∧
     (∀ p ∈ (producedRecords [⟨"A", "s"⟩] [[1]] "2025-01-01 12:00:00.000000"
           (([⟨"g1", "Group One", true⟩, ⟨"g2", "Group Two", true⟩] : List Group).filter
             fun g => g.managed)).map (recordPreimage "2025-01-01 12:00:00.000000"),
       ∀ q ∈ (producedRecords [⟨"A", "s"⟩] [[1]] "2025-01-01 12:00:00.000000"
           (([⟨"g1", "Group One", true⟩, ⟨"g2", "Group Two", true⟩] : List Group).filter
             fun g => g.managed)).map (recordPreimage "2025-01-01 12:00:00.000000"),
       sha256Hex p = sha256Hex q → p = q)) ∧
    ((producedRecords [⟨"A", "s"⟩] [[1]] "2025-01-01 12:00:00.000000"
        (([⟨"g1", "Group One", true⟩, ⟨"g2", "Group Two", true⟩] : List Group).filter
          fun g => g.managed)).length = 1 * 2 ∧
     ((producedRecords [⟨"A", "s"⟩] [[1]] "2025-01-01 12:00:00.000000"
        (([⟨"g1", "Group One", true⟩, ⟨"g2", "Group Two", true⟩] : List Group).filter
          fun g => g.managed)).map fun r => r.id).Nodup ∧
     (load_custom_topics_api [⟨"A", "s"⟩] (fun _ => .ok [[1]])
        [⟨"g1", "Group One", true⟩, ⟨"g2", "Group Two", true⟩]
        "2025-01-01 12:00:00.000000" []).response =
      .ok { status := "success"
            message := "Loaded " ++ toString (1 : Nat) ++ " topics for " ++
                       toString (2 : Nat) ++ " groups"
            topics_count := some 1
            groups_count := some 2
            total_records := some 2 }) := by
  have hhash : ∀ p ∈ (producedRecords [⟨"A", "s"⟩] [[1]] "2025-01-01 12:00:00.000000"
        (([⟨"g1", "Group One", true⟩, ⟨"g2", "Group Two", true⟩] : List Group).filter
          fun g => g.managed)).map (recordPreimage "2025-01-01 12:00:00.000000"),
      ∀ q ∈ (producedRecords [⟨"A", "s"⟩] [[1]] "2025-01-01 12:00:00.000000"
        (([⟨"g1", "Group One", true⟩, ⟨"g2", "Group Two", true⟩] : List Group).filter
          fun g => g.managed)).map (recordPreimage "2025-01-01 12:00:00.000000"),
      sha256Hex p = sha256Hex q → p = q := by decide
  have h := claim_C2 [⟨"A", "s"⟩] (fun _ => .ok [[1]])
    [⟨"g1", "Group One", true⟩, ⟨"g2", "Group Two", true⟩]
    "2025-01-01 12:00:00.000000" [] [[1]]
    rfl rfl (by decide) (by decide) (by decide) (by decide) (by decide) (by decide) hhash
  exact ⟨rfl, ⟨by decide, by decide, hhash⟩, h.1, h.2.1, h.2.2⟩

end WaBot
